import Mathlib

/-!
Verification of the nebula-importer client pool (`pkg/client/clientpool.go`).

The Go source is shallowly embedded below.  External effects are modelled as
oracles passed in as functions:
  * a session's `Execute` is a function from statement (and, in the worker
    retry loop, the index of the call) to an `ExecResult`;
  * `nebula.NewConnectionPool` / `ConnectionPool.GetSession` outcomes come
    from a `NebulaEnv` record;
  * channel sends (`statsCh`, each request's `ErrCh`) and shutdown effects
    become explicit event traces.
Real time (backoff sleeping, `MaxElapsedTime`, wall-clock durations) is
abstracted: the retry loop takes a `fuel` argument bounding how many times
the exponential-backoff timer still allows a retry before the elapsed-time
cap fires.
-/

namespace NebulaClient

/-- Model of Go `strings.Split s sep` for a single-character separator
(the source only splits on "," and ":").  Empty parts are preserved and
`splitChar c "" = [""]`, as in Go. -/
def splitChar (sep : Char) (s : String) : List String :=
  (s.toList.foldr
    (fun c acc =>
      if c = sep then [] :: acc
      else
        match acc with
        | h :: t => (c :: h) :: t
        | [] => [[c]])
    [[]]).map (fun l => String.mk l)

/-- Is `pat` a prefix of `l` (over characters)?  Helper for the substring
test used to model `strings.Contains`. -/
def prefixOfList : List Char → List Char → Bool
  | [], _ => true
  | _ :: _, [] => false
  | a :: as, b :: bs => a == b && prefixOfList as bs

/-- Does `pat` occur as a contiguous run somewhere in `l`? -/
def substrAux (pat : List Char) : List Char → Bool
  | [] => prefixOfList pat []
  | c :: cs => prefixOfList pat (c :: cs) || substrAux pat cs

/-- Model of Go `strings.Contains s pat`: true iff `pat` occurs as a
contiguous substring of `s` (an empty pattern always matches, as in Go). -/
def containsSubstring (s pat : String) : Bool :=
  substrAux pat.toList s.toList

/-- Model of Go `strconv.Atoi`: an optional leading sign followed by one or
more decimal digits; anything else is an error.  (Go additionally range
checks against the machine int, which is irrelevant for port numbers.) -/
def atoi (s : String) : Except String Int :=
  let core : Bool × List Char :=
    match s.toList with
    | '-' :: rest => (true, rest)
    | '+' :: rest => (false, rest)
    | l => (false, l)
  if core.2.length = 0 then
    .error ("strconv.Atoi: parsing " ++ s ++ ": invalid syntax")
  else if core.2.all (fun c => c.isDigit) then
    let n : Nat := core.2.foldl (fun acc c => acc * 10 + (c.toNat - 48)) 0
    .ok (if core.1 then -(n : Int) else (n : Int))
  else
    .error ("strconv.Atoi: parsing " ++ s ++ ": invalid syntax")

/-- Boolean observer on `Except`: true exactly on `.error`.  An `.error`
result carries no value of type `α`, which models Go's `return nil, err`. -/
def isErr {ε α : Type} : Except ε α → Bool
  | .error _ => true
  | .ok _ => false

/-- Error code of a successful response (`nebula.ErrorCode_SUCCEEDED`). -/
def ErrorCode_SUCCEEDED : Int := 0

/-- Code for malformed statements, `nebula.ErrorCode_E_SYNTAX_ERROR`
(numeric value from the nebula-go v3 ErrorCode enum; only its distinctness
from 0 and from the semantic code matters below). -/
def ErrorCode_E_SYNTAX_ERROR : Int := -1004

/-- Code for semantically invalid statements,
`nebula.ErrorCode_E_SEMANTIC_ERROR` (numeric value from the nebula-go v3
ErrorCode enum). -/
def ErrorCode_E_SEMANTIC_ERROR : Int := -1009

/-- Model of the parts of `nebula.ResultSet` the client pool reads: the
error code, the error message, and the server latency. -/
structure ResultSet where
  errorCode : Int
  errorMsg : String
  latency : Int
deriving DecidableEq

/-- Model of `ResultSet.IsSucceed` from nebula-go: the response succeeded
iff its error code is `SUCCEEDED` (0). -/
def ResultSet.IsSucceed (r : ResultSet) : Bool :=
  r.errorCode == ErrorCode_SUCCEEDED

/-- Outcome of a single `Session.Execute` call: either a transport error
(Go returns a nil response and a non-nil `error`) or a server response
(non-nil response, nil `error`). -/
inductive ExecResult where
  | transportErr (msg : String)
  | response (r : ResultSet)
deriving DecidableEq

/-- A pool session, identified by an acquisition token; sessions are opaque
to the pool beyond their `Execute`/`Release` behaviour, which is supplied
by oracles. -/
structure Session where
  id : Nat
deriving DecidableEq

/-- Model of `nebula.HostAddress`. -/
structure HostAddress where
  host : String
  port : Int
deriving DecidableEq

/-- Model of `config.NebulaPostStart` (commands and settle period). -/
structure PostStart where
  commands : Option String
  afterPeriod : String
deriving DecidableEq

/-- Model of `config.NebulaPreStop` (optional command batch). -/
structure PreStop where
  commands : Option String
deriving DecidableEq

/-- Model of the fields of `config.NebulaClientSettings` that
`NewClientPool` reads.  `concurrency` and `channelBufferSize` are the
(validated, non-negative) Go ints. -/
structure NebulaClientSettings where
  address : String
  user : String
  password : String
  space : String
  retry : Int
  concurrency : Nat
  channelBufferSize : Nat
  postStart : Option PostStart
  preStop : Option PreStop
deriving DecidableEq

/-- Modelled from the spec: a payload record carrying its byte size
(`base.Data` lives outside `src/`; the spec describes the payload as an
ordered sequence of records-with-byte-size). -/
structure DataRec where
  bytes : Int
deriving DecidableEq

/-- Modelled from the spec: the statement and payload of
`base.ClientRequest` (the request's `ErrCh` is modelled by the worker's
output event trace). -/
structure ClientRequest where
  stmt : String
  data : List DataRec
deriving DecidableEq

/-- Modelled from the spec: `base.STAT_FILEDONE`, the reserved sentinel
statement value marking end-of-input for a worker queue (its concrete
value lives outside `src/`; only its role as a fixed distinguished
statement matters). -/
def STAT_FILEDONE : String := "FILEDONE"

/-- Model of the `ClientPool` struct.  Channels become trace-producing
oracles elsewhere, so `statsCh` has no counterpart here; a request-queue
slot is `some capacity` when the Go slice slot holds a live channel and
`none` when it is nil, mirroring `[]*nebula.Session` / `[]chan` slots. -/
structure ClientPool where
  retry : Int
  concurrency : Nat
  space : String
  postStart : Option PostStart
  preStop : Option PreStop
  Sessions : List (Option Session)
  requestChs : List (Option Nat)
deriving DecidableEq

/-- Outcomes of the external nebula-go calls that `NewClientPool` makes:
whether `NewConnectionPool` succeeds, and the outcome of the j-th
`GetSession(user, password)` call (the credentials are fixed for the whole
loop, so only the call order `j` distinguishes calls). -/
structure NebulaEnv where
  newConnectionPool : List HostAddress → Except String Unit
  getSession : Nat → Except String Session

/-- One entry of the address-parsing loop in `NewClientPool`: split on ":",
require exactly host and port, and parse the port with `strconv.Atoi`. -/
def parseAddr (addr : String) : Except String HostAddress :=
  match splitChar ':' addr with
  | [host, portStr] =>
    match atoi portStr with
    | .error e => .error e
    | .ok port => .ok { host := host, port := port }
  | _ => .error ("Invalid address: " ++ addr)

/-- The whole address loop of `NewClientPool`: parse each comma-separated
entry, failing at the first malformed one. -/
def parseHosts : List String → Except String (List HostAddress)
  | [] => .ok []
  | a :: rest =>
    match parseAddr a with
    | .error e => .error e
    | .ok h =>
      match parseHosts rest with
      | .error e => .error e
      | .ok t => .ok (h :: t)

/-- The session/queue fill loop of `NewClientPool`, flattened: the Go code
iterates `k` over endpoints and `i` over per-endpoint concurrency while a
single running index `j` fills `Sessions[j]` and `requestChs[j]`, which is
exactly a single loop over `j = base, base+1, ...` of the given length.
Fails at the first failed `GetSession`, as the Go code returns there. -/
def fillSlots (env : NebulaEnv) (base : Nat) : Nat → Except String (List Session)
  | 0 => .ok []
  | n + 1 =>
    match env.getSession base with
    | .error e => .error e
    | .ok s =>
      match fillSlots env (base + 1) n with
      | .error e => .error e
      | .ok rest => .ok (s :: rest)

/-- Model of `NewClientPool`: parse the address list, create the connection
pool, then acquire one session and allocate one buffered request channel
per slot.  Any failure returns `.error` — Go's `return nil, err` — so no
pool value exists on failure. -/
def NewClientPool (env : NebulaEnv) (settings : NebulaClientSettings) :
    Except String ClientPool :=
  match parseHosts (splitChar ',' settings.address) with
  | .error e => .error e
  | .ok hosts =>
    match env.newConnectionPool hosts with
    | .error e => .error e
    | .ok _ =>
      match fillSlots env 0
        (settings.concurrency * (splitChar ',' settings.address).length) with
      | .error e => .error e
      | .ok slots =>
        .ok { retry := settings.retry
              concurrency :=
                settings.concurrency * (splitChar ',' settings.address).length
              space := settings.space
              postStart := settings.postStart
              preStop := settings.preStop
              Sessions := slots.map some
              requestChs :=
                List.replicate
                  (settings.concurrency * (splitChar ',' settings.address).length)
                  (some settings.channelBufferSize) }

/-- Error text of `exec` when `Execute` itself returns an error. -/
def execTransportMsg (i : Int) (stmt : String) (e : String) : String :=
  "Client(" ++ toString i ++ ") fails to execute commands (" ++ stmt ++
    "), error: " ++ e

/-- Error text of `exec` when the response is unsuccessful. -/
def execRespMsg (i : Int) (stmt : String) (r : ResultSet) : String :=
  "Client(" ++ toString i ++ ") fails to execute commands (" ++ stmt ++
    "), response error code: " ++ toString r.errorCode ++ ", message: " ++
    r.errorMsg

/-- Model of `ClientPool.exec(i, stmt)`.  `run` is the behaviour of
`p.Sessions[i].Execute`; `i` only feeds the error messages.  Returns the
error (`none` on success) together with the list of statements actually
sent to the session, so that "no `Execute` call was performed" is the
trace `[]`. -/
def exec (run : String → ExecResult) (i : Int) (stmt : String) :
    Option String × List String :=
  if stmt.length = 0 then (none, [])
  else
    match run stmt with
    | .transportErr e => (some (execTransportMsg i stmt e), [stmt])
    | .response r =>
      if r.IsSucceed then (none, [stmt])
      else (some (execRespMsg i stmt r), [stmt])

/-- Index of the first non-nil session slot, if any; the loop inside
`getActiveConnIdx`. -/
def firstActiveIdx : List (Option Session) → Option Nat
  | [] => none
  | some _ :: _ => some 0
  | none :: rest => (firstActiveIdx rest).map (· + 1)

/-- Model of `ClientPool.getActiveConnIdx`: first non-nil slot, `-1` when
every slot is nil. -/
def getActiveConnIdx (p : ClientPool) : Int :=
  match firstActiveIdx p.Sessions with
  | some i => (i : Int)
  | none => -1

/-- Observable effects of `ClientPool.Close`, in order. -/
inductive CloseEvent where
  | execCmd (i : Nat) (stmt : String)
  | logErr (msg : String)
  | releaseSession (i : Nat)
  | closeQueue (i : Nat)
  | closeConnPool
deriving DecidableEq

/-- The pre-stop part of `Close`: when a pre-stop command batch is
configured and some session slot is active, run it through `exec` on the
first active slot and log (never return) its error. -/
def preStopEvents (sessRun : Nat → String → ExecResult) (p : ClientPool) :
    List CloseEvent :=
  match p.preStop with
  | none => []
  | some ps =>
    match ps.commands with
    | none => []
    | some cmds =>
      match firstActiveIdx p.Sessions with
      | none => []
      | some i =>
        match exec (sessRun i) (i : Int) cmds with
        | (none, sent) => sent.map (CloseEvent.execCmd i)
        | (some e, sent) => sent.map (CloseEvent.execCmd i) ++ [CloseEvent.logErr e]

/-- The per-slot loop of `Close`: for each index `i` below `concurrency`,
release `Sessions[i]` when non-nil, then close `requestChs[i]` when
non-nil, then move to slot `i + 1`. -/
def closeSlotEvents (sessions : List (Option Session)) (chs : List (Option Nat)) :
    Nat → Nat → List CloseEvent
  | _, 0 => []
  | i, n + 1 =>
    ((if (sessions.getD i none).isSome then [CloseEvent.releaseSession i] else []) ++
      (if (chs.getD i none).isSome then [CloseEvent.closeQueue i] else [])) ++
      closeSlotEvents sessions chs (i + 1) n

/-- Model of `ClientPool.Close` as its effect trace: best-effort pre-stop
hook, then the per-slot release/close loop, then `p.pool.Close()`. -/
def Close (sessRun : Nat → String → ExecResult) (p : ClientPool) :
    List CloseEvent :=
  preStopEvents sessRun p ++
    closeSlotEvents p.Sessions p.requestChs 0 p.concurrency ++
    [CloseEvent.closeConnPool]

/-- The backpressure signature tested with `strings.Contains` in the worker
retry loop. -/
def raftBufferFullMsg : String := "raft buffer is full"

/-- The `fmt.Errorf("%d:%s", errorCode, errorMsg)` text built for a failed
response inside the retry closure. -/
def retryErrMsg (r : ResultSet) : String :=
  toString r.errorCode ++ ":" ++ r.errorMsg

/-- The `isPermanentError` flag computed by the `switch errorCode` in the
retry closure: in Go an empty `case` body matches and does nothing (there
is no implicit fallthrough), so both the syntax and the semantic code keep
the flag `true` while `default` clears it. -/
def isPermanentError (errorCode : Int) : Bool :=
  if errorCode = ErrorCode_E_SYNTAX_ERROR then true
  else if errorCode = ErrorCode_E_SEMANTIC_ERROR then true
  else false

/-- What one pass of the retry closure tells `backoff.Retry`: `success`
(`return nil`), `permanent e` (`return backoff.Permanent(retryErr)`), or
`retryAgain e` (`return retryErr`, a plain error, so backoff sleeps and
calls again). -/
inductive RetryDecision where
  | success
  | permanent (err : String)
  | retryAgain (err : String)
deriving DecidableEq

/-- Result of one pass of the retry closure: the decision handed to
`backoff.Retry` and the value of the captured `retry` counter afterwards. -/
structure ClassifyResult where
  decision : RetryDecision
  retry : Int
deriving DecidableEq

/-- Model of one pass of the closure passed to `backoff.Retry` in
`startWorker`, for one `Execute` outcome: success check, the permanent
error-code switch, the raft-backpressure reset (`retry = p.retry`), and
the bounded case (`if retry <= 0` permanent, else `retry--`). -/
def classifyAttempt (pRetry retry : Int) (res : ExecResult) : ClassifyResult :=
  match res with
  | .response r =>
    if r.IsSucceed then { decision := .success, retry := retry }
    else
      let retryErr := retryErrMsg r
      if isPermanentError r.errorCode then
        { decision := .permanent retryErr, retry := retry }
      else if containsSubstring r.errorMsg raftBufferFullMsg then
        { decision := .retryAgain retryErr, retry := pRetry }
      else if retry ≤ 0 then
        { decision := .permanent retryErr, retry := retry }
      else
        { decision := .retryAgain retryErr, retry := retry - 1 }
  | .transportErr e =>
    if retry ≤ 0 then { decision := .permanent e, retry := retry }
    else { decision := .retryAgain e, retry := retry - 1 }

/-- How `backoff.Retry` came to stop: the closure returned nil, the
closure returned `backoff.Permanent`, or the exponential-backoff timer
exceeded its elapsed-time cap. -/
inductive StopKind where
  | success
  | permanentStop
  | elapsed
deriving DecidableEq

/-- Result of the whole `backoff.Retry` loop over one request: how it
stopped, how many `Execute` calls it consumed, and the `(resp, err)` pair
left in scope by the last call (which is what the post-loop code reads). -/
structure LoopResult where
  stop : StopKind
  calls : Nat
  last : ExecResult
deriving DecidableEq

/-- Model of `backoff.Retry` around the classify closure.  `session n stmt`
is the outcome of the n-th `Execute` call of the worker, `base` the index
of the next call, and `fuel` abstracts the exponential-backoff timer: how
many more retries the `MaxElapsedTime` cap still allows (the first attempt
is never blocked by the cap). -/
def retryLoop (session : Nat → String → ExecResult) (stmt : String)
    (pRetry : Int) : Nat → Nat → Int → LoopResult
  | 0, base, retry =>
    let res := session base stmt
    match (classifyAttempt pRetry retry res).decision with
    | .success => { stop := .success, calls := 1, last := res }
    | .permanent _ => { stop := .permanentStop, calls := 1, last := res }
    | .retryAgain _ => { stop := .elapsed, calls := 1, last := res }
  | fuel + 1, base, retry =>
    let res := session base stmt
    match (classifyAttempt pRetry retry res).decision with
    | .success => { stop := .success, calls := 1, last := res }
    | .permanent _ => { stop := .permanentStop, calls := 1, last := res }
    | .retryAgain _ =>
      let rest :=
        retryLoop session stmt pRetry fuel (base + 1)
          (classifyAttempt pRetry retry res).retry
      { stop := rest.stop, calls := rest.calls + 1, last := rest.last }

/-- A send a worker performs for one dequeued request: either an `ErrData`
on the request's error channel (`error = none` is the sentinel ack
`ErrData{Error: nil}`) or a success-stats record on the shared stats
channel.  The stats record's wall-clock duration field is real time and is
not modelled; latency, record count and byte count are. -/
inductive OutEvent where
  | errSend (error : Option String) (payload : List DataRec)
  | statsSend (latency : Int) (records : Nat) (bytes : Int)
deriving DecidableEq

/-- The `importedBytes` accumulation over `data.Data`. -/
def sumBytes (l : List DataRec) : Int :=
  l.foldl (fun acc d => acc + d.bytes) 0

/-- Error text of the worker when the last `Execute` returned an error. -/
def workerTransportMsg (i : Int) (stmt : String) (e : String) : String :=
  "Client " ++ toString i ++ " fail to execute: " ++ stmt ++ ", Error: " ++ e

/-- Error text of the worker when the last response is unsuccessful. -/
def workerRespMsg (i : Int) (stmt : String) (r : ResultSet) : String :=
  "Client " ++ toString i ++ " fail to execute: " ++ stmt ++ ", ErrMsg: " ++
    r.errorMsg ++ ", ErrCode: " ++ toString r.errorCode

/-- The post-retry-loop reporting code of `startWorker`: from the final
`(resp, err)` pair, send exactly one `ErrData` carrying the original
payload, or exactly one success-stats record
`NewSuccessStats(resp.GetLatency(), timeInMs, len(data.Data), importedBytes)`. -/
def outcomeOf (i : Int) (req : ClientRequest) (lr : LoopResult) : OutEvent :=
  match lr.last with
  | .transportErr e => .errSend (some (workerTransportMsg i req.stmt e)) req.data
  | .response r =>
    if r.IsSucceed then .statsSend r.latency req.data.length (sumBytes req.data)
    else .errSend (some (workerRespMsg i req.stmt r)) req.data

/-- The dequeue loop of `startWorker` over the queue contents (the list end
models the channel being closed, i.e. `ok == false`).  Returns the events
sent and the statements sent to the session; `calls` numbers the session's
`Execute` calls across the whole worker. -/
def workerLoop (session : Nat → String → ExecResult) (i : Int) (pRetry : Int)
    (fuel : Nat) : Nat → List ClientRequest → List OutEvent × List String
  | _, [] => ([], [])
  | calls, req :: rest =>
    if req.stmt = STAT_FILEDONE then
      let tail := workerLoop session i pRetry fuel calls rest
      (OutEvent.errSend none [] :: tail.1, tail.2)
    else
      let lr := retryLoop session req.stmt pRetry fuel calls pRetry
      let tail := workerLoop session i pRetry fuel (calls + lr.calls) rest
      (outcomeOf i req lr :: tail.1,
        List.replicate lr.calls req.stmt ++ tail.2)

/-- The namespace-selection statement a worker runs before its loop. -/
def useStmt (space : String) : String :=
  "USE `" ++ space ++ "`;"

/-- Model of `startWorker(i)`: run `exec` on the USE statement once (it is
the session's call 0); on failure log and return without touching the
queue, otherwise drain the queue.  Returns (events sent, statements sent
to the session). -/
def startWorker (session : Nat → String → ExecResult) (i : Int) (space : String)
    (pRetry : Int) (fuel : Nat) (reqs : List ClientRequest) :
    List OutEvent × List String :=
  match exec (session 0) i (useStmt space) with
  | (some _, sent) => ([], sent)
  | (none, sent) =>
    let tail := workerLoop session i pRetry fuel sent.length reqs
    (tail.1, sent ++ tail.2)

/-- Observer: the error string the classify closure hands to backoff for a
given `Execute` outcome (the transport error itself, or the
`code:message` text built from a response). -/
def attemptErrMsg : ExecResult → String
  | .transportErr e => e
  | .response r => retryErrMsg r

/-- Observer: an `Execute` outcome that the classifier treats as
bounded-retryable — a transport error with no response, or an
unsuccessful response whose code is not permanent and whose message does
not match the backpressure signature. -/
def boundedRetryable : ExecResult → Bool
  | .transportErr _ => true
  | .response r =>
    !r.IsSucceed && !isPermanentError r.errorCode &&
      !containsSubstring r.errorMsg raftBufferFullMsg

/-- Observer: did the last `Execute` outcome of a retry loop succeed
(no transport error and a successful response)? -/
def lastSucceeded : ExecResult → Bool
  | .transportErr _ => false
  | .response r => r.IsSucceed

/-- Observer: the server latency of the last outcome (0 for a transport
error; only read below when the outcome succeeded). -/
def lastLatency : ExecResult → Int
  | .transportErr _ => 0
  | .response r => r.latency

/-- Observer: is a close event a session release? -/
def isReleaseEvent : CloseEvent → Bool
  | .releaseSession _ => true
  | _ => false

/-- Observer: is a close event one of the pre-stop hook effects (a command
sent to a session, or a logged error)? -/
def isHookEvent : CloseEvent → Bool
  | .execCmd _ _ => true
  | .logErr _ => true
  | _ => false

/-- Observer: does some session release occur strictly after some queue
close in the trace?  A trace that releases all sessions before closing any
queue makes this false. -/
def hasReleaseAfterQueueClose : List CloseEvent → Bool
  | [] => false
  | CloseEvent.closeQueue _ :: rest =>
    rest.any isReleaseEvent || hasReleaseAfterQueueClose rest
  | _ :: rest => hasReleaseAfterQueueClose rest

/-- Fixture: an environment in which pool creation and every session
acquisition succeed. -/
def envW : NebulaEnv :=
  { newConnectionPool := fun _ => .ok ()
    getSession := fun j => .ok { id := j } }

/-- Fixture: settings with two endpoints and per-endpoint concurrency 1. -/
def settingsW : NebulaClientSettings :=
  { address := "h1:9669,h2:9669", user := "u", password := "p", space := "sp"
    retry := 3, concurrency := 1, channelBufferSize := 128
    postStart := none, preStop := none }

/-- Fixture: the pool `NewClientPool envW settingsW` builds. -/
def poolW : ClientPool :=
  { retry := 3, concurrency := 2, space := "sp", postStart := none, preStop := none
    Sessions := [some { id := 0 }, some { id := 1 }]
    requestChs := [some 128, some 128] }

/-- Fixture: `poolW` with a configured pre-stop command batch. -/
def poolPre : ClientPool :=
  { poolW with preStop := some { commands := some "SUBMIT JOB STATS" } }

/-- Fixture: a session whose every `Execute` succeeds with latency 5. -/
def runOK : Nat → String → ExecResult :=
  fun _ _ => .response { errorCode := 0, errorMsg := "", latency := 5 }

/-- Fixture: a session whose every `Execute` fails with a transport error. -/
def runDown : Nat → String → ExecResult :=
  fun _ _ => .transportErr "conn reset"

/-- Fixture: the end-of-input sentinel request. -/
def reqDone : ClientRequest := { stmt := STAT_FILEDONE, data := [] }

/-- Fixture: a real write request with two records of 7 and 5 bytes. -/
def reqIns : ClientRequest :=
  { stmt := "INSERT x", data := [{ bytes := 7 }, { bytes := 5 }] }

/-- Fixture: a response with the syntax-error code. -/
def rSyntax : ResultSet :=
  { errorCode := ErrorCode_E_SYNTAX_ERROR, errorMsg := "syntax error near x", latency := 0 }

/-- Fixture: a backpressure response with a non-permanent error code. -/
def rBuf : ResultSet :=
  { errorCode := -8, errorMsg := "raft buffer is full", latency := 0 }

/-- Fixture: a response carrying the syntax-error code together with a
message matching the backpressure signature. -/
def rBufSyntax : ResultSet :=
  { errorCode := ErrorCode_E_SYNTAX_ERROR, errorMsg := "raft buffer is full", latency := 0 }

lemma classify_bounded_pos (pRetry retry : Int) (res : ExecResult)
    (hb : boundedRetryable res = true) (hr : 0 < retry) :
    classifyAttempt pRetry retry res =
      { decision := .retryAgain (attemptErrMsg res), retry := retry - 1 } := by
  have hr0 : ¬ retry ≤ 0 := by omega
  cases res with
  | transportErr e => simp [classifyAttempt, attemptErrMsg, hr0]
  | response r =>
    simp only [boundedRetryable, Bool.and_eq_true, Bool.not_eq_true'] at hb
    simp [classifyAttempt, attemptErrMsg, hb.1.1, hb.1.2, hb.2, hr0]

lemma classify_bounded_nonpos (pRetry retry : Int) (res : ExecResult)
    (hb : boundedRetryable res = true) (hr : retry ≤ 0) :
    classifyAttempt pRetry retry res =
      { decision := .permanent (attemptErrMsg res), retry := retry } := by
  cases res with
  | transportErr e => simp [classifyAttempt, attemptErrMsg, hr]
  | response r =>
    simp only [boundedRetryable, Bool.and_eq_true, Bool.not_eq_true'] at hb
    simp [classifyAttempt, attemptErrMsg, hb.1.1, hb.1.2, hb.2, hr]

lemma bounded_not_succeed (res : ExecResult) (hb : boundedRetryable res = true) :
    lastSucceeded res = false := by
  cases res with
  | transportErr e => rfl
  | response r =>
    simp only [boundedRetryable, Bool.and_eq_true, Bool.not_eq_true'] at hb
    simp [lastSucceeded, hb.1.1]

lemma retryLoop_bounded (session : Nat → String → ExecResult) (stmt : String)
    (k : Nat) (hall : ∀ n, boundedRetryable (session n stmt) = true) :
    ∀ (rn fuel base : Nat),
      retryLoop session stmt (k : Int) fuel base (rn : Int) =
        { stop := if rn ≤ fuel then .permanentStop else .elapsed
          calls := min rn fuel + 1
          last := session (base + min rn fuel) stmt } := by
  intro rn
  induction rn with
  | zero =>
    intro fuel base
    have hc := classify_bounded_nonpos (k : Int) 0 (session base stmt) (hall base) le_rfl
    cases fuel with
    | zero => simp [retryLoop, hc]
    | succ f => simp [retryLoop, hc]
  | succ rn ih =>
    intro fuel base
    have hpos : (0 : Int) < (rn : Int) + 1 := by positivity
    have hc := classify_bounded_pos (k : Int) ((rn : Int) + 1) (session base stmt)
      (hall base) hpos
    have hdec : ((rn : Int) + 1) - 1 = (rn : Int) := by ring
    have hcast : ((rn + 1 : Nat) : Int) = (rn : Int) + 1 := by push_cast; ring
    rw [hcast]
    cases fuel with
    | zero =>
      simp [retryLoop, hc, Nat.min_zero]
    | succ f =>
      simp only [retryLoop, hc, hdec]
      rw [ih f (base + 1)]
      have h1 : min (rn + 1) (f + 1) = min rn f + 1 := Nat.succ_min_succ rn f
      simp only [h1]
      congr 1
      · simp [Nat.succ_le_succ_iff]
      · congr 1
        omega

lemma fillSlots_length (env : NebulaEnv) :
    ∀ (n base : Nat) (l : List Session), fillSlots env base n = .ok l → l.length = n := by
  intro n
  induction n with
  | zero =>
    intro base l h
    simp only [fillSlots] at h
    cases h
    rfl
  | succ n ih =>
    intro base l h
    simp only [fillSlots] at h
    cases hg : env.getSession base with
    | error e => rw [hg] at h; cases h
    | ok s =>
      rw [hg] at h
      cases hf : fillSlots env (base + 1) n with
      | error e => rw [hf] at h; cases h
      | ok rest =>
        rw [hf] at h
        cases h
        simp [ih (base + 1) rest hf]

lemma parseHosts_err_of_mem :
    ∀ (l : List String) (a : String), a ∈ l → isErr (parseAddr a) = true →
      isErr (parseHosts l) = true := by
  intro l
  induction l with
  | nil => intro a ha; cases ha
  | cons b rest ih =>
    intro a ha hErr
    rcases List.mem_cons.mp ha with h1 | h1
    · subst h1
      cases hpa : parseAddr a with
      | error e => simp [parseHosts, hpa, isErr]
      | ok h => rw [hpa] at hErr; cases hErr
    · cases hpb : parseAddr b with
      | error e => simp [parseHosts, hpb, isErr]
      | ok hb =>
        have hrest := ih a h1 hErr
        cases hr : parseHosts rest with
        | error e => simp [parseHosts, hpb, hr, isErr]
        | ok t => rw [hr] at hrest; cases hrest

lemma fillSlots_err (env : NebulaEnv) :
    ∀ (n base : Nat), (∃ d, d < n ∧ isErr (env.getSession (base + d)) = true) →
      isErr (fillSlots env base n) = true := by
  intro n
  induction n with
  | zero =>
    intro base h
    rcases h with ⟨d, hd, _⟩
    omega
  | succ n ih =>
    intro base h
    rcases h with ⟨d, hd, hErr⟩
    cases hg : env.getSession base with
    | error e => simp [fillSlots, hg, isErr]
    | ok s =>
      cases d with
      | zero =>
        rw [Nat.add_zero] at hErr
        rw [hg] at hErr
        cases hErr
      | succ d2 =>
        have hrec := ih (base + 1) ⟨d2, by omega, by
          rw [show base + 1 + d2 = base + (d2 + 1) by omega]; exact hErr⟩
        cases hf : fillSlots env (base + 1) n with
        | error e => simp [fillSlots, hg, hf, isErr]
        | ok rest => rw [hf] at hrec; cases hrec

lemma getLast_append_single (l : List CloseEvent) (x : CloseEvent) :
    (l ++ [x]).getLast? = some x := by
  exact List.getLast?_concat l

lemma closeSlot_release_mem (sessions : List (Option Session)) (chs : List (Option Nat)) :
    ∀ (n base i : Nat), i < n → (sessions.getD (base + i) none).isSome = true →
      CloseEvent.releaseSession (base + i) ∈ closeSlotEvents sessions chs base n := by
  intro n
  induction n with
  | zero => intro base i hi; omega
  | succ n ih =>
    intro base i hi hs
    simp only [closeSlotEvents]
    cases i with
    | zero =>
      rw [Nat.add_zero] at hs ⊢
      refine List.mem_append.mpr (Or.inl (List.mem_append.mpr (Or.inl ?_)))
      simpa [List.getD] using hs
    | succ i2 =>
      have hrec := ih (base + 1) i2 (by omega) (by
        rw [show base + 1 + i2 = base + (i2 + 1) by omega]; exact hs)
      rw [show base + (i2 + 1) = base + 1 + i2 by omega]
      simp [List.mem_append, hrec]

lemma closeSlot_queue_mem (sessions : List (Option Session)) (chs : List (Option Nat)) :
    ∀ (n base i : Nat), i < n → (chs.getD (base + i) none).isSome = true →
      CloseEvent.closeQueue (base + i) ∈ closeSlotEvents sessions chs base n := by
  intro n
  induction n with
  | zero => intro base i hi; omega
  | succ n ih =>
    intro base i hi hs
    simp only [closeSlotEvents]
    cases i with
    | zero =>
      rw [Nat.add_zero] at hs ⊢
      refine List.mem_append.mpr (Or.inl (List.mem_append.mpr (Or.inr ?_)))
      simpa [List.getD] using hs
    | succ i2 =>
      have hrec := ih (base + 1) i2 (by omega) (by
        rw [show base + 1 + i2 = base + (i2 + 1) by omega]; exact hs)
      rw [show base + (i2 + 1) = base + 1 + i2 by omega]
      simp [List.mem_append, hrec]

lemma preStop_hook_only (sessRun : Nat → String → ExecResult) (p : ClientPool) :
    ∀ e ∈ preStopEvents sessRun p, isHookEvent e = true := by
  intro e he
  unfold preStopEvents at he
  split at he
  · cases he
  · split at he
    · cases he
    · split at he
      · cases he
      · split at he
        · rcases List.mem_map.mp he with ⟨s, _, rfl⟩
          rfl
        · rcases List.mem_append.mp he with h1 | h1
          · rcases List.mem_map.mp h1 with ⟨s, _, rfl⟩
            rfl
          · rcases List.mem_singleton.mp h1 with rfl
            rfl

lemma useStmt_length (space : String) : (useStmt space).length = space.length + 7 := by
  have h5 : ("USE `" : String).length = 5 := rfl
  have h2 : ("`;" : String).length = 2 := rfl
  simp [useStmt, String.length_append, h5, h2]
  omega

lemma exec_use_sent (run : String → ExecResult) (i : Int) (space : String) :
    (exec run i (useStmt space)).2 = [useStmt space] := by
  have hlen : ¬ (useStmt space).length = 0 := by
    rw [useStmt_length]; omega
  unfold exec
  rw [if_neg hlen]
  cases run (useStmt space) with
  | transportErr e => rfl
  | response r => cases hr : r.IsSucceed <;> simp [hr]

/-- C1: an execution attempt whose response carries a permanent-class error
code (syntax or semantic) makes the retry classifier return
`backoff.Permanent` on the first occurrence, whatever the remaining budget
`retry` and configured budget `pRetry` are, and the retry loop around it
then stops after that single `Execute` call with a permanent failure. -/
theorem c1_permanent_error_stops_retrying (pRetry retry : Int) (r : ResultSet)
    (h : r.errorCode = ErrorCode_E_SYNTAX_ERROR ∨
      r.errorCode = ErrorCode_E_SEMANTIC_ERROR) :
    classifyAttempt pRetry retry (.response r) =
      { decision := .permanent (retryErrMsg r), retry := retry } ∧
    ∀ (session : Nat → String → ExecResult) (stmt : String) (fuel base : Nat),
      session base stmt = .response r →
      retryLoop session stmt pRetry fuel base retry =
        { stop := .permanentStop, calls := 1, last := .response r } := by
  have hfail : r.IsSucceed = false := by
    rcases h with h | h <;>
      simp [ResultSet.IsSucceed, h, ErrorCode_E_SYNTAX_ERROR,
        ErrorCode_E_SEMANTIC_ERROR, ErrorCode_SUCCEEDED]
  have hperm : isPermanentError r.errorCode = true := by
    rcases h with h | h <;> simp [isPermanentError, h]
  have hc : classifyAttempt pRetry retry (.response r) =
      { decision := .permanent (retryErrMsg r), retry := retry } := by
    simp [classifyAttempt, hfail, hperm]
  refine ⟨hc, ?_⟩
  intro session stmt fuel base hs
  cases fuel with
  | zero => simp [retryLoop, hs, hc]
  | succ f => simp [retryLoop, hs, hc]

/-- C1 witness: a concrete syntax-error response is classified permanent at
once and the loop performs exactly one call despite a remaining budget of 5. -/
theorem c1_witness :
    classifyAttempt 3 5 (.response rSyntax) =
      { decision := .permanent (retryErrMsg rSyntax), retry := 5 } ∧
    retryLoop (fun _ _ => .response rSyntax) "INSERT x" 3 4 0 5 =
      { stop := .permanentStop, calls := 1, last := .response rSyntax } := by
  have h := c1_permanent_error_stops_retrying 3 5 rSyntax (Or.inl rfl)
  exact ⟨h.1, h.2 (fun _ _ => .response rSyntax) "INSERT x" 4 0 rfl⟩

/-- C2 counterexample: a response whose message matches the backpressure
signature but whose error code is the (permanent) syntax code is classified
as a permanent failure with the counter left untouched — the budget (3) is
not restored and the attempt is not retried, so the claim fails as stated
for this input. -/
theorem c2_counterexample :
    containsSubstring rBufSyntax.errorMsg raftBufferFullMsg = true ∧
    classifyAttempt 3 1 (.response rBufSyntax) =
      { decision := .permanent (retryErrMsg rBufSyntax), retry := 1 } ∧
    (classifyAttempt 3 1 (.response rBufSyntax)).retry ≠ 3 := by
  refine ⟨by decide, by decide, by decide⟩

/-- C2 (amended): for every execution attempt whose response is
unsuccessful, carries a non-permanent error code, and whose message
matches the backpressure signature, the classifier resets the per-request
bounded-retry counter to the configured budget `pRetry` instead of
decrementing it, and returns a plain (retryable) error so the attempt is
retried. -/
theorem c2_backpressure_resets_budget (pRetry retry : Int) (r : ResultSet)
    (h0 : r.IsSucceed = false)
    (h1 : isPermanentError r.errorCode = false)
    (h2 : containsSubstring r.errorMsg raftBufferFullMsg = true) :
    classifyAttempt pRetry retry (.response r) =
      { decision := .retryAgain (retryErrMsg r), retry := pRetry } := by
  simp [classifyAttempt, h0, h1, h2]

/-- C2 witness: a concrete raft-buffer-full response with a non-permanent
code resets a counter of 1 back to the budget 7 and is retried. -/
theorem c2_witness :
    classifyAttempt 7 1 (.response rBuf) =
      { decision := .retryAgain (retryErrMsg rBuf), retry := 7 } :=
  c2_backpressure_resets_budget 7 1 rBuf (by decide) (by decide) (by decide)

/-- C3 counterexample: a worker whose queue holds the end-of-input sentinel
followed by another request acknowledges the sentinel and then keeps
consuming — it acknowledges the second request too, so its event trace has
two entries where a worker that stopped at the sentinel would emit exactly
one. -/
theorem c3_counterexample :
    (startWorker runOK 0 "sp" 3 0 [reqDone, reqDone]).1 =
      [OutEvent.errSend none [], OutEvent.errSend none []] ∧
    (startWorker runOK 0 "sp" 3 0 [reqDone, reqDone]).1 ≠
      [OutEvent.errSend none []] := by
  exact ⟨rfl, by decide⟩

/-- C3 (amended): when a worker dequeues the end-of-input sentinel it
acknowledges it with a success report (nil-error `ErrData` on the request's
error channel) and then continues draining the remaining queue contents;
the worker stops, consuming nothing further, only when its queue is closed
(the end of the queue contents). -/
theorem c3_sentinel_acknowledged_then_continue
    (session : Nat → String → ExecResult) (i pRetry : Int) (fuel calls : Nat)
    (req : ClientRequest) (rest : List ClientRequest)
    (h : req.stmt = STAT_FILEDONE) :
    workerLoop session i pRetry fuel calls (req :: rest) =
      (OutEvent.errSend none [] :: (workerLoop session i pRetry fuel calls rest).1,
        (workerLoop session i pRetry fuel calls rest).2) ∧
    workerLoop session i pRetry fuel calls [] = ([], []) := by
  constructor
  · simp [workerLoop, h]
  · rfl

/-- C3 witness: a queue holding just the sentinel produces exactly the
acknowledgement and nothing else. -/
theorem c3_witness :
    workerLoop runOK 0 3 0 0 [reqDone] = ([OutEvent.errSend none []], []) := by
  have h := c3_sentinel_acknowledged_then_continue runOK 0 3 0 0 reqDone [] rfl
  exact h.1.trans rfl

/-- C4: when every `Execute` outcome is bounded-retryable (a transport
error with no response, or an unsuccessful response with neither a
permanent code nor the backpressure signature), each failed attempt with
budget left decrements the counter by exactly one, an attempt with no
budget left is converted to a permanent failure, and a loop started with
budget `k` performs exactly `min k fuel + 1` calls — at most `k + 1` —
ending in a permanent stop (never a success) whenever the elapsed-time
fuel does not run out first. -/
theorem c4_bounded_retry_at_most_k_plus_one (k : Nat)
    (session : Nat → String → ExecResult) (stmt : String) (fuel base : Nat)
    (hall : ∀ n, boundedRetryable (session n stmt) = true) :
    (∀ (retry : Int) (n : Nat), 0 < retry →
        classifyAttempt (k : Int) retry (session n stmt) =
          { decision := .retryAgain (attemptErrMsg (session n stmt))
            retry := retry - 1 }) ∧
    (∀ (retry : Int) (n : Nat), retry ≤ 0 →
        classifyAttempt (k : Int) retry (session n stmt) =
          { decision := .permanent (attemptErrMsg (session n stmt))
            retry := retry }) ∧
    (retryLoop session stmt (k : Int) fuel base (k : Int)).calls = min k fuel + 1 ∧
    (retryLoop session stmt (k : Int) fuel base (k : Int)).calls ≤ k + 1 ∧
    (k ≤ fuel →
      (retryLoop session stmt (k : Int) fuel base (k : Int)).stop = .permanentStop) ∧
    lastSucceeded (retryLoop session stmt (k : Int) fuel base (k : Int)).last = false := by
  have hloop := retryLoop_bounded session stmt k hall k fuel base
  refine ⟨?_, ?_, ?_, ?_, ?_, ?_⟩
  · intro retry n hr
    exact classify_bounded_pos (k : Int) retry (session n stmt) (hall n) hr
  · intro retry n hr
    exact classify_bounded_nonpos (k : Int) retry (session n stmt) (hall n) hr
  · rw [hloop]
  · rw [hloop]
    show min k fuel + 1 ≤ k + 1
    have := Nat.min_le_left k fuel
    omega
  · intro hk
    rw [hloop]
    simp [hk]
  · rw [hloop]
    exact bounded_not_succeed _ (hall (base + min k fuel))

/-- C4 witness: a session that always fails with a transport error, budget
2, plenty of fuel: exactly 3 calls, ending in a permanent stop. -/
theorem c4_witness :
    (retryLoop runDown "INSERT x" 2 10 0 2).calls = 3 ∧
    (retryLoop runDown "INSERT x" 2 10 0 2).stop = .permanentStop := by
  have h := c4_bounded_retry_at_most_k_plus_one 2 runDown "INSERT x" 10 0 (fun n => rfl)
  exact ⟨h.2.2.1.trans (by decide), h.2.2.2.2.1 (by omega)⟩

/-- C5: a dequeued non-sentinel request contributes exactly one outcome
event to the worker's trace — the head of the trace for that request — and
that event is a success-stats record (server latency, record count, byte
count of the original payload) on the stats channel when the final attempt
succeeded, and an `ErrData` (error message plus the original payload) on
the request's error channel when it did not; never both, never neither. -/
theorem c5_exactly_one_outcome (session : Nat → String → ExecResult)
    (i pRetry : Int) (fuel calls : Nat) (req : ClientRequest)
    (rest : List ClientRequest) (h : ¬ req.stmt = STAT_FILEDONE) :
    ((workerLoop session i pRetry fuel calls (req :: rest)).1 =
      outcomeOf i req (retryLoop session req.stmt pRetry fuel calls pRetry) ::
        (workerLoop session i pRetry fuel
          (calls + (retryLoop session req.stmt pRetry fuel calls pRetry).calls) rest).1) ∧
    (∀ lr : LoopResult,
      (lastSucceeded lr.last = true →
        outcomeOf i req lr =
          .statsSend (lastLatency lr.last) req.data.length (sumBytes req.data)) ∧
      (lastSucceeded lr.last = false →
        ∃ m, outcomeOf i req lr = .errSend (some m) req.data)) := by
  constructor
  · simp [workerLoop, h]
  · intro lr
    constructor
    · intro hs
      cases hl : lr.last with
      | transportErr e => rw [hl] at hs; cases hs
      | response r =>
        rw [hl] at hs
        simp only [lastSucceeded] at hs
        simp [outcomeOf, lastLatency, hl, hs]
    · intro hs
      cases hl : lr.last with
      | transportErr e =>
        exact ⟨workerTransportMsg i req.stmt e, by simp [outcomeOf, hl]⟩
      | response r =>
        rw [hl] at hs
        simp only [lastSucceeded] at hs
        exact ⟨workerRespMsg i req.stmt r, by simp [outcomeOf, hl, hs]⟩

/-- C5 witness: a single successful request yields exactly one stats event
carrying latency 5, 2 records, and 12 bytes, and no error event. -/
theorem c5_witness :
    (workerLoop runOK 0 3 4 0 [reqIns]).1 = [OutEvent.statsSend 5 2 12] := by
  have h := c5_exactly_one_outcome runOK 0 3 4 0 reqIns [] (by decide)
  exact h.1.trans rfl

/-- C6: a pool returned by a successful `NewClientPool` has derived
concurrency equal to the per-endpoint concurrency times the number of
comma-separated endpoints, its `Sessions` and `requestChs` both have
exactly that length, and every slot holds a session and a queue. -/
theorem c6_pool_sizes (env : NebulaEnv) (s : NebulaClientSettings)
    (p : ClientPool) (h : NewClientPool env s = .ok p) :
    p.concurrency = s.concurrency * (splitChar ',' s.address).length ∧
    p.Sessions.length = p.concurrency ∧
    p.requestChs.length = p.concurrency ∧
    (∀ slot ∈ p.Sessions, slot.isSome = true) ∧
    (∀ q ∈ p.requestChs, q.isSome = true) := by
  unfold NewClientPool at h
  cases hp : parseHosts (splitChar ',' s.address) with
  | error e => rw [hp] at h; cases h
  | ok hosts =>
    rw [hp] at h
    dsimp only at h
    cases hnp : env.newConnectionPool hosts with
    | error e => rw [hnp] at h; cases h
    | ok u =>
      rw [hnp] at h
      dsimp only at h
      cases hf : fillSlots env 0 (s.concurrency * (splitChar ',' s.address).length) with
      | error e => rw [hf] at h; cases h
      | ok slots =>
        rw [hf] at h
        dsimp only at h
        cases h
        have hlen := fillSlots_length env _ 0 slots hf
        refine ⟨rfl, ?_, ?_, ?_, ?_⟩
        · simp [hlen]
        · simp
        · intro slot hslot
          rcases List.mem_map.mp hslot with ⟨sess, _, rfl⟩
          rfl
        · intro q hq
          have := List.eq_of_mem_replicate hq
          subst this
          rfl

/-- C6 witness: the endpoint list "h1:9669,h2:9669" with per-endpoint
concurrency 1 yields derived concurrency 2, two sessions, and two queues. -/
theorem c6_witness :
    poolW.concurrency = settingsW.concurrency * (splitChar ',' settingsW.address).length ∧
    poolW.Sessions.length = 2 ∧
    poolW.requestChs.length = 2 := by
  have h := c6_pool_sizes envW settingsW poolW rfl
  exact ⟨h.1, h.2.1.trans rfl, h.2.2.1.trans rfl⟩

/-- C7: a construction input with a malformed endpoint entry (one that does
not split into exactly host and port, or whose port is not an integer), or
with a failed session acquisition within the derived concurrency, makes
`NewClientPool` return an error — `.error` carries no pool value, so no
partially constructed pool is ever handed out. -/
theorem c7_construction_failure_returns_error (env : NebulaEnv)
    (s : NebulaClientSettings)
    (h : (∃ a ∈ splitChar ',' s.address, isErr (parseAddr a) = true) ∨
      (∃ j, j < s.concurrency * (splitChar ',' s.address).length ∧
        isErr (env.getSession j) = true)) :
    isErr (NewClientPool env s) = true := by
  unfold NewClientPool
  cases hp : parseHosts (splitChar ',' s.address) with
  | error e => rfl
  | ok hosts =>
    dsimp only
    cases hnp : env.newConnectionPool hosts with
    | error e => rfl
    | ok u =>
      dsimp only
      cases hf : fillSlots env 0 (s.concurrency * (splitChar ',' s.address).length) with
      | error e => rfl
      | ok slots =>
        exfalso
        rcases h with ⟨a, ha, haErr⟩ | ⟨j, hj, hjErr⟩
        · have := parseHosts_err_of_mem (splitChar ',' s.address) a ha haErr
          rw [hp] at this
          cases this
        · have := fillSlots_err env (s.concurrency * (splitChar ',' s.address).length) 0
            ⟨j, hj, by rwa [Nat.zero_add]⟩
          rw [hf] at this
          cases this

/-- C7 witness: the malformed address "h1" (no port) aborts construction
with an error. -/
theorem c7_witness : isErr (NewClientPool envW
    { settingsW with address := "h1" }) = true :=
  c7_construction_failure_returns_error envW { settingsW with address := "h1" }
    (Or.inl ⟨"h1", by decide, by decide⟩)

/-- C8 counterexample: on a pool with two live slots, `Close` releases
session 0, closes queue 0, then releases session 1 — a session release
occurs after a queue close — so the trace is not "all releases, then all
queue closes, then the connection-pool close" as the claim orders it. -/
theorem c8_counterexample :
    Close runOK poolW =
      [CloseEvent.releaseSession 0, CloseEvent.closeQueue 0,
        CloseEvent.releaseSession 1, CloseEvent.closeQueue 1,
        CloseEvent.closeConnPool] ∧
    hasReleaseAfterQueueClose (Close runOK poolW) = true := by
  exact ⟨rfl, rfl⟩

/-- C8 (amended): `Close` always runs to completion — whatever the pre-stop
command execution does (failure is only logged), the trace consists of the
pre-stop hook events followed by the per-slot loop and finally the
connection-pool close; every non-nil session below `concurrency` is
released and every non-nil queue is closed, interleaved slot by slot in
index order (each slot's session release precedes that slot's queue close)
rather than in two separate phases, and the connection-pool close comes
last. -/
theorem c8_close_always_completes (sessRun : Nat → String → ExecResult)
    (p : ClientPool) :
    (Close sessRun p).getLast? = some CloseEvent.closeConnPool ∧
    (∀ i, i < p.concurrency → (p.Sessions.getD i none).isSome = true →
      CloseEvent.releaseSession i ∈ Close sessRun p) ∧
    (∀ i, i < p.concurrency → (p.requestChs.getD i none).isSome = true →
      CloseEvent.closeQueue i ∈ Close sessRun p) ∧
    (∀ e ∈ preStopEvents sessRun p, isHookEvent e = true) ∧
    (∀ ps cmds i e, p.preStop = some ps → ps.commands = some cmds →
      firstActiveIdx p.Sessions = some i →
      (exec (sessRun i) (i : Int) cmds).1 = some e →
      CloseEvent.logErr e ∈ Close sessRun p) ∧
    Close sessRun p =
      preStopEvents sessRun p ++
        closeSlotEvents p.Sessions p.requestChs 0 p.concurrency ++
        [CloseEvent.closeConnPool] := by
  refine ⟨?_, ?_, ?_, preStop_hook_only sessRun p, ?_, rfl⟩
  · show (preStopEvents sessRun p ++
      closeSlotEvents p.Sessions p.requestChs 0 p.concurrency ++
      [CloseEvent.closeConnPool]).getLast? = some CloseEvent.closeConnPool
    rw [List.append_assoc, ← List.append_assoc]
    exact getLast_append_single _ _
  · intro i hi hs
    have hmem := closeSlot_release_mem p.Sessions p.requestChs p.concurrency 0 i hi
      (by rwa [Nat.zero_add])
    rw [Nat.zero_add] at hmem
    exact List.mem_append.mpr (Or.inl (List.mem_append.mpr (Or.inr hmem)))
  · intro i hi hq
    have hmem := closeSlot_queue_mem p.Sessions p.requestChs p.concurrency 0 i hi
      (by rwa [Nat.zero_add])
    rw [Nat.zero_add] at hmem
    exact List.mem_append.mpr (Or.inl (List.mem_append.mpr (Or.inr hmem)))
  · intro ps cmds i e hps hcmds hfa hexec
    have hpre : CloseEvent.logErr e ∈ preStopEvents sessRun p := by
      unfold preStopEvents
      rw [hps]
      dsimp only
      rw [hcmds]
      dsimp only
      rw [hfa]
      dsimp only
      cases hE : exec (sessRun i) (i : Int) cmds with
      | mk fst snd =>
        rw [hE] at hexec
        simp only at hexec
        subst hexec
        simp
    exact List.mem_append.mpr (Or.inl (List.mem_append.mpr (Or.inl hpre)))

/-- C8 witness: on a one-slot pool with a failing pre-stop command, the
error is logged, the session is released, the queue is closed, and the
connection-pool close comes last. -/
theorem c8_witness :
    CloseEvent.releaseSession 0 ∈ Close runDown poolPre ∧
    CloseEvent.closeQueue 0 ∈ Close runDown poolPre ∧
    (Close runDown poolPre).getLast? = some CloseEvent.closeConnPool ∧
    CloseEvent.logErr (execTransportMsg 0 "SUBMIT JOB STATS" "conn reset") ∈
      Close runDown poolPre := by
  have h := c8_close_always_completes runDown poolPre
  exact ⟨h.2.1 0 (by decide) rfl, h.2.2.1 0 (by decide) rfl, h.1,
    h.2.2.2.2.1 { commands := some "SUBMIT JOB STATS" } "SUBMIT JOB STATS" 0 _
      rfl rfl rfl rfl⟩

/-- C9: every worker sends the namespace-selection statement to its session
exactly once, before reading anything from its queue (it is the head of the
worker's statement trace); and if that statement fails, the worker returns
having sent nothing but the USE statement and produced no events — it never
processes or acknowledges any queued request. -/
theorem c9_use_failure_is_terminal (session : Nat → String → ExecResult)
    (i : Int) (space : String) (pRetry : Int) (fuel : Nat)
    (reqs : List ClientRequest) :
    (∃ rest, (startWorker session i space pRetry fuel reqs).2 =
      useStmt space :: rest) ∧
    (∀ e, (exec (session 0) i (useStmt space)).1 = some e →
      startWorker session i space pRetry fuel reqs = ([], [useStmt space])) := by
  have hsent := exec_use_sent (session 0) i space
  constructor
  · unfold startWorker
    cases hE : exec (session 0) i (useStmt space) with
    | mk fst snd =>
      rw [hE] at hsent
      simp only at hsent
      subst hsent
      cases fst with
      | none =>
        exact ⟨(workerLoop session i pRetry fuel
          [useStmt space].length reqs).2, rfl⟩
      | some e => exact ⟨[], rfl⟩
  · intro e he
    unfold startWorker
    cases hE : exec (session 0) i (useStmt space) with
    | mk fst snd =>
      rw [hE] at hsent he
      simp only at hsent he
      subst hsent
      subst he
      rfl

/-- C9 witness: a worker whose session is down fails the USE statement and
terminates with an empty event trace, having sent only the USE statement. -/
theorem c9_witness :
    startWorker runDown 0 "sp" 3 2 [reqIns] = ([], [useStmt "sp"]) :=
  (c9_use_failure_is_terminal runDown 0 "sp" 3 2 [reqIns]).2 _ rfl

/-- C10: `exec` with the empty statement returns nil (no error) without
performing any `Execute` call — its statement trace is empty — so an empty
pre-start, pre-stop, or hook command batch is a successful no-op leaving
every session untouched, for every worker index and session behaviour. -/
theorem c10_empty_statement_noop (run : String → ExecResult) (i : Int) :
    exec run i "" = (none, []) := rfl

end NebulaClient
